import Mathlib

/-!
Shallow embedding of the fastMCP4J Python test-harness scripts
(mcp-client-test and python-tests) and proofs about their behaviour:
result aggregation and summary statistics, expectation evaluation,
session-retry loops, wire framing, exit codes and report persistence.
Each definition is translated from the corresponding Python source.
-/

/-- Model of a Python runtime value as handled by the test clients:
JSON-decoded tool results, expected values and persisted report fields. -/
inductive PyVal where
  | none : PyVal
  | bool : Bool → PyVal
  | num : ℚ → PyVal
  | str : String → PyVal
  | list : List PyVal → PyVal
  | dict : List (String × PyVal) → PyVal

/-- Python truthiness (`bool(v)`) for the value kinds the clients handle:
None, False, 0, 0.0, the empty string and empty containers are falsy. -/
def pyTruthy : PyVal → Bool
  | .none => false
  | .bool b => b
  | .num q => q != 0
  | .str s => s != ""
  | .list items => items.length != 0
  | .dict fields => fields.length != 0

/-- Python `str(...)` rendering. The exact text of numeric and structured
renderings is not load-bearing for any claim; only which values render at
all (truthy ones) matters to the persisted report. -/
def pyStr : PyVal → String
  | .none => "None"
  | .bool true => "True"
  | .bool false => "False"
  | .num q => toString q
  | .str s => s
  | .list _ => "[list]"
  | .dict _ => "[dict]"

/-- TestResult as built by `MCPTestClient.add_result` in mcp_test_client.py:
tool (operation group), operation, case name, passed flag, rendered
expected and actual values, optional error text. -/
structure TestResult where
  tool : String
  operation : String
  name : String
  passed : Bool
  expected : PyVal := .none
  actual : PyVal := .none
  error : Option String := Option.none

/-- The operation groups of `MCPTestClient.print_summary`: the distinct
tool names appearing among the accumulated results (the keys of the
`tools` dict; the order of the groups is immaterial to the totals). -/
def groupKeys (rs : List TestResult) : List String :=
  (rs.map (fun r => r.tool)).dedup

/-- Per-group pass counter of `print_summary`: the number of accumulated
results of one tool whose passed flag is set. -/
def groupPass (rs : List TestResult) (t : String) : Nat :=
  rs.countP (fun r => r.tool == t && r.passed)

/-- Per-group fail counter of `print_summary`. -/
def groupFail (rs : List TestResult) (t : String) : Nat :=
  rs.countP (fun r => r.tool == t && !r.passed)

/-- `total_passed` of `print_summary`: results whose passed flag is set. -/
def total_passed (rs : List TestResult) : Nat :=
  rs.countP (fun r => r.passed)

/-- `total_failed` of `print_summary`, computed as
`total_tests - total_passed` exactly as in the source. -/
def total_failed (rs : List TestResult) : Nat :=
  rs.length - total_passed rs

theorem sum_map_ite_not_mem (ts : List String) (a : String) (ha : a ∉ ts) :
    (ts.map (fun t => if a = t then 1 else 0)).sum = 0 := by
  induction ts with
  | nil => simp
  | cons t ts ih =>
    have hne : a ≠ t := fun h => ha (h ▸ List.mem_cons_self t ts)
    have hrest : a ∉ ts := fun h => ha (List.mem_cons_of_mem t h)
    simp [List.map_cons, List.sum_cons, hne, ih hrest]

theorem sum_map_ite_mem (ts : List String) (a : String) (hnd : ts.Nodup)
    (ha : a ∈ ts) : (ts.map (fun t => if a = t then 1 else 0)).sum = 1 := by
  induction ts with
  | nil => cases ha
  | cons t ts ih =>
    rcases List.nodup_cons.mp hnd with ⟨htni, hndt⟩
    rcases List.mem_cons.mp ha with h | h
    · subst h
      simp [List.map_cons, List.sum_cons, sum_map_ite_not_mem ts a htni]
    · have hne : a ≠ t := fun hat => htni (hat ▸ h)
      simp [List.map_cons, List.sum_cons, hne, ih hndt h]

theorem sum_countP_key (l : List TestResult) (p : TestResult → Bool)
    (ts : List String) (hnd : ts.Nodup) (hcov : ∀ x ∈ l, x.tool ∈ ts) :
    (ts.map (fun t => l.countP (fun x => x.tool == t && p x))).sum
      = l.countP p := by
  induction l with
  | nil => simp
  | cons x xs ih =>
    have hx : x.tool ∈ ts := hcov x (List.mem_cons_self x xs)
    have hcov' : ∀ y ∈ xs, y.tool ∈ ts :=
      fun y hy => hcov y (List.mem_cons_of_mem x hy)
    simp only [List.countP_cons]
    rw [List.sum_map_add, ih hcov']
    congr 1
    cases hp : p x with
    | true =>
      simp only [hp, Bool.and_true, if_pos rfl]
      have h := sum_map_ite_mem ts x.tool hnd hx
      simpa using h
    | false =>
      simp [hp]

theorem countP_not_eq_sub (rs : List TestResult) :
    rs.countP (fun r => !r.passed) = rs.length - total_passed rs := by
  unfold total_passed
  induction rs with
  | nil => simp
  | cons r rs ih =>
    simp only [List.countP_cons, List.length_cons]
    have hle := List.countP_le_length (fun r : TestResult => r.passed) (l := rs)
    cases hr : r.passed <;> simp <;> omega

/-- C1: for every sequence of accumulated TestResults, the per-group pass
and fail counts computed by `print_summary` sum to the overall totals over
the partition by operation group (tool), and passed plus failed equals the
number of accumulated results. -/
theorem print_summary_partition (rs : List TestResult) :
    ((groupKeys rs).map (fun t => groupPass rs t)).sum = total_passed rs ∧
    ((groupKeys rs).map (fun t => groupFail rs t)).sum = total_failed rs ∧
    total_passed rs + total_failed rs = rs.length := by
  have hnd : (groupKeys rs).Nodup := List.nodup_dedup _
  have hcov : ∀ x ∈ rs, x.tool ∈ groupKeys rs := by
    intro x hx
    exact List.mem_dedup.mpr (List.mem_map_of_mem (fun r => r.tool) hx)
  refine ⟨?_, ?_, ?_⟩
  · exact sum_countP_key rs (fun r => r.passed) (groupKeys rs) hnd hcov
  · have h := sum_countP_key rs (fun r => !r.passed) (groupKeys rs) hnd hcov
    unfold groupFail total_failed
    rw [h, countP_not_eq_sub]
  · have hle := List.countP_le_length (fun r : TestResult => r.passed) (l := rs)
    simp only [total_passed, total_failed]
    omega

/-- True when a decoded tool result is a Python dict containing the key
"error" — the shape `MCPTestClient.call_tool` produces after capturing an
exception (`isinstance(result, dict) and "error" in result`). -/
def isErrorDict : PyVal → Bool
  | .dict fields => fields.any (fun kv => kv.1 == "error")
  | _ => false

/-- True exactly for the Python value None. -/
def pyIsNone : PyVal → Bool
  | .none => true
  | _ => false

/-- The text stored under the "error" key of a captured-error dict. -/
def dictErrorText : PyVal → Option String
  | .dict fields =>
      (fields.find? (fun kv => kv.1 == "error")).map (fun kv => pyStr kv.2)
  | _ => Option.none

/-- One iteration of the result classification in
`MCPTestClient.test_memory` (mcp_test_client.py, lines 261-271): an
error-dict result is recorded as passed for the failure-expected case
named "verify deleted" and as failed for any other case; a non-error
result is recorded with `passed = result is not None`. -/
def test_memory_case (command name expected : String) (result : PyVal) :
    TestResult :=
  if isErrorDict result then
    if name = "verify deleted" then
      { tool := "memory", operation := command, name := name, passed := true,
        expected := .str "file not found", actual := result }
    else
      { tool := "memory", operation := command, name := name, passed := false,
        expected := .str expected, error := dictErrorText result }
  else
    { tool := "memory", operation := command, name := name,
      passed := !(pyIsNone result), expected := .str expected,
      actual := result }

/-- C5 counterexample: the failure-expected case "verify deleted" is marked
passed even when the invocation returns a successful (non-error, non-None)
value, so it is not marked failed as the claim requires. -/
theorem test_memory_failure_expected_counterexample :
    isErrorDict (PyVal.str "renamed.txt contents") = false ∧
    (test_memory_case "view" "verify deleted" "not found"
        (PyVal.str "renamed.txt contents")).passed = true := by
  constructor
  · rfl
  · rfl

/-- C5 amended: the failure-expected case "verify deleted" passes whenever
the invocation produced an error outcome; when the invocation instead
returns a successful value the case falls into the generic non-error
handling and is marked passed exactly when the value is not None — a
successful non-None value is not marked failed. -/
theorem test_memory_failure_expected (name expected : String) (result : PyVal) :
    (isErrorDict result = true →
      (test_memory_case "view" "verify deleted" expected result).passed
        = true) ∧
    (isErrorDict result = false →
      (test_memory_case "view" name expected result).passed
        = !(pyIsNone result)) := by
  constructor
  · intro h
    simp [test_memory_case, h]
  · intro h
    simp [test_memory_case, h]

/-- C5 witness: a captured division-by-zero style error outcome makes the
failure-expected case pass, and a successful string value also passes. -/
theorem test_memory_failure_expected_witness :
    (test_memory_case "view" "verify deleted" "not found"
        (PyVal.dict [("error", PyVal.str "division by zero")])).passed
      = true ∧
    (test_memory_case "view" "view file" "content"
        (PyVal.str "Hello")).passed = true := by
  constructor
  · exact (test_memory_failure_expected "view file" "not found"
      (PyVal.dict [("error", PyVal.str "division by zero")])).1 (by rfl)
  · exact (test_memory_failure_expected "view file" "content"
      (PyVal.str "Hello")).2 (by rfl)

/-- The numeric-match rule of `MCPTestClient.test_calculate`
(mcp_test_client.py, line 136): `passed = abs(result - expected) < 0.0001`.
Floating-point values are modelled as rationals. -/
def mcp_test_client_calcPassed (result expected : ℚ) : Bool :=
  |result - expected| < 1/10000

/-- The numeric-match rule of `SimpleMCPClient.test_calculate`
(mcp_client_simple.py, line 134): `passed = abs(result - expected) < 0.001`. -/
def mcp_client_simple_calcPassed (result expected : ℚ) : Bool :=
  |result - expected| < 1/1000

/-- C6 counterexample: SimpleMCPClient marks an actual value of 15.0005
against an expected 15.0 as passed although the absolute difference 0.0005
is not below 1e-4, so the fixed tolerance 1e-4 is not used by every client
performing numeric matching. -/
theorem tolerance_not_uniform_counterexample :
    mcp_client_simple_calcPassed (15 + 1/2000) 15 = true ∧
    ¬ (|(15 + 1/2000 : ℚ) - 15| < 1/10000) := by
  constructor
  · simp only [mcp_client_simple_calcPassed, decide_eq_true_eq, abs_sub_lt_iff]
    norm_num
  · simp only [abs_sub_lt_iff, not_and_or, not_lt]
    norm_num

/-- C6 amended: MCPTestClient computes the numeric-match passed flag as
absolute difference strictly below 1e-4, but SimpleMCPClient uses the
looser fixed tolerance 1e-3; every case passing the 1e-4 rule passes the
1e-3 rule, so the tolerance is not shared by every client. -/
theorem numeric_match_tolerances (result expected : ℚ) :
    (mcp_test_client_calcPassed result expected = true
      ↔ |result - expected| < 1/10000) ∧
    (mcp_client_simple_calcPassed result expected = true
      ↔ |result - expected| < 1/1000) ∧
    (mcp_test_client_calcPassed result expected = true →
      mcp_client_simple_calcPassed result expected = true) := by
  refine ⟨?_, ?_, ?_⟩
  · simp [mcp_test_client_calcPassed]
  · simp [mcp_client_simple_calcPassed]
  · intro h
    simp only [mcp_test_client_calcPassed, decide_eq_true_eq] at h
    simp only [mcp_client_simple_calcPassed, decide_eq_true_eq]
    calc |result - expected| < 1/10000 := h
      _ < 1/1000 := by norm_num

/-- C6 witness: the ADD scenario, actual 15.00005 against expected 15,
passes under both tolerance rules. -/
theorem numeric_match_tolerances_witness :
    mcp_test_client_calcPassed (15 + 1/20000) 15 = true ∧
    mcp_client_simple_calcPassed (15 + 1/20000) 15 = true := by
  constructor
  · exact (numeric_match_tolerances (15 + 1/20000) 15).1.mpr
      (by rw [abs_sub_lt_iff]; norm_num)
  · exact (numeric_match_tolerances (15 + 1/20000) 15).2.2
      ((numeric_match_tolerances (15 + 1/20000) 15).1.mpr
        (by rw [abs_sub_lt_iff]; norm_num))

/-- Rendering of the expected and actual fields in
`MCPTestClient.save_results` (mcp_test_client.py, line 427):
`str(v) if v else None`, i.e. null for every falsy captured value and the
string rendering for every truthy one. -/
def save_results_field (v : PyVal) : Option String :=
  if pyTruthy v then some (pyStr v) else Option.none

/-- C10: the persisted report writes null for the falsy captured values —
the number 0 (which also models 0.0), the empty string and False — and the
string rendering for every truthy captured value. -/
theorem save_results_falsy_null :
    save_results_field (PyVal.num 0) = Option.none ∧
    save_results_field (PyVal.str "") = Option.none ∧
    save_results_field (PyVal.bool false) = Option.none ∧
    (∀ v, pyTruthy v = true → save_results_field v = some (pyStr v)) := by
  refine ⟨rfl, rfl, rfl, ?_⟩
  intro v hv
  simp [save_results_field, hv]

/-- C10 witness: a truthy captured value is persisted as its rendering. -/
theorem save_results_falsy_null_witness :
    save_results_field (PyVal.str "15.0") = some "15.0" :=
  save_results_falsy_null.2.2.2 (PyVal.str "15.0") (by rfl)

/-- The retry configuration of test_sse_quick.py (max_retries = 5,
retry_delay = 2) — the same values as MAX_RETRIES and RETRY_DELAY in
python-tests/test_streamable_quick.py. -/
def max_retries : Nat := 5

/-- The fixed backoff delay in time units between attempts. -/
def retry_delay : Nat := 2

/-- Observable trace of one run of the retry loop: the process exit code
it returns, the number of attempts performed, and the total time spent in
the sleep calls between consecutive attempts. -/
structure RunTrace where
  exitCode : Nat
  attempts : Nat
  sleepTime : Nat
deriving DecidableEq

/-- The body of the retry loop of test_sse_quick.main (lines 14-51),
starting at attempt index i with the given number of range elements left.
On each attempt the whole try-block runs: session establishment (connect
plus initialize, succeeding when `est i`) followed by the tool-call
sequence (succeeding when `bod i`); any exception from either part is
caught by the same handler, which sleeps the fixed delay and moves to the
next attempt while range elements remain (`attempt < max_retries - 1`) and
returns exit code 1 once they are exhausted.  An empty range returns
Python None, which sys.exit maps to exit code 0. -/
def sse_quick_go (est bod : Nat → Bool) (i : Nat) : Nat → RunTrace
  | 0 => { exitCode := 0, attempts := 0, sleepTime := 0 }
  | 1 =>
    if est i && bod i then { exitCode := 0, attempts := 1, sleepTime := 0 }
    else { exitCode := 1, attempts := 1, sleepTime := 0 }
  | f + 2 =>
    if est i && bod i then { exitCode := 0, attempts := 1, sleepTime := 0 }
    else
      { exitCode := (sse_quick_go est bod (i + 1) (f + 1)).exitCode,
        attempts := (sse_quick_go est bod (i + 1) (f + 1)).attempts + 1,
        sleepTime := (sse_quick_go est bod (i + 1) (f + 1)).sleepTime
          + retry_delay }

/-- The full run of test_sse_quick.main: the retry loop over attempt
indices 0 through max_retries - 1. -/
def sse_quick_main (est bod : Nat → Bool) : RunTrace :=
  sse_quick_go est bod 0 max_retries

theorem sse_quick_go_fail_step (est bod : Nat → Bool) (i f : Nat)
    (hcond : (est i && bod i) = false) :
    sse_quick_go est bod i (f + 2)
      = { exitCode := (sse_quick_go est bod (i + 1) (f + 1)).exitCode,
          attempts := (sse_quick_go est bod (i + 1) (f + 1)).attempts + 1,
          sleepTime := (sse_quick_go est bod (i + 1) (f + 1)).sleepTime
            + retry_delay } := by
  simp only [sse_quick_go, hcond]
  simp

theorem sse_quick_go_attempts_pos (est bod : Nat → Bool) (i fuel : Nat)
    (hf : 1 ≤ fuel) : 1 ≤ (sse_quick_go est bod i fuel).attempts := by
  match fuel with
  | 0 => omega
  | 1 =>
    simp only [sse_quick_go]
    cases hc : est i && bod i <;> simp [hc]
  | f + 2 =>
    simp only [sse_quick_go]
    cases hc : est i && bod i <;> simp [hc]

theorem sse_quick_go_success (est bod : Nat → Bool) (k : Nat) :
    ∀ i fuel, k < fuel → (∀ j, j < k → est (i + j) = false) →
    est (i + k) = true → bod (i + k) = true →
    sse_quick_go est bod i fuel
      = { exitCode := 0, attempts := k + 1, sleepTime := retry_delay * k } := by
  induction k with
  | zero =>
    intro i fuel hk hfail hest hbod
    rw [Nat.add_zero] at hest hbod
    match fuel with
    | 0 => omega
    | 1 => simp [sse_quick_go, hest, hbod]
    | f + 2 => simp [sse_quick_go, hest, hbod]
  | succ k ih =>
    intro i fuel hk hfail hest hbod
    have h0 : est i = false := by
      have h := hfail 0 (Nat.succ_pos k)
      rwa [Nat.add_zero] at h
    have hcond : (est i && bod i) = false := by simp [h0]
    match fuel with
    | 0 => omega
    | 1 => omega
    | f + 2 =>
      have hrec := ih (i + 1) (f + 1) (by omega)
        (fun j hj => by
          have h := hfail (j + 1) (by omega)
          rwa [show i + (j + 1) = i + 1 + j by omega] at h)
        (by rwa [show i + 1 + k = i + (k + 1) by omega])
        (by rwa [show i + 1 + k = i + (k + 1) by omega])
      rw [sse_quick_go_fail_step est bod i f hcond, hrec]
      refine congrArg₂ _ rfl ?_
      simp [retry_delay]
      ring

/-- C3 counterexample: with session establishment succeeding on the very
first attempt (k = 0) but the subsequent tool calls failing on every
attempt, the retry loop does not report success after k + 1 = 1 attempt:
it performs all 5 attempts and exits with code 1, because the loop wraps
the whole attempt body, not only connect plus initialize. -/
theorem retry_k_plus_one_counterexample :
    (sse_quick_main (fun _ => true) (fun _ => false)).exitCode = 1 ∧
    (sse_quick_main (fun _ => true) (fun _ => false)).attempts = 5 := by
  constructor
  · rfl
  · rfl

/-- C3 amended: if session establishment fails on exactly the first k
attempts (k below the maximum of 5), succeeds on the next, and the tool
calls of that attempt also succeed, then the retry loop reports success
(exit code 0), performs exactly k + 1 attempts, and sleeps the fixed
2-time-unit delay between consecutive attempts (total 2k). -/
theorem retry_succeeds_after_k_failures (est bod : Nat → Bool) (k : Nat)
    (hk : k < max_retries) (hfail : ∀ j, j < k → est j = false)
    (hest : est k = true) (hbod : bod k = true) :
    sse_quick_main est bod
      = { exitCode := 0, attempts := k + 1, sleepTime := retry_delay * k } :=
  sse_quick_go_success est bod k 0 max_retries hk
    (fun j hj => by simpa using hfail j hj)
    (by simpa using hest) (by simpa using hbod)

/-- C3 witness: establishment fails on the first two attempts and then
succeeds with working tool calls; the loop succeeds in 3 attempts with
4 time units spent sleeping. -/
theorem retry_succeeds_after_k_failures_witness :
    sse_quick_main (fun i => decide (2 ≤ i)) (fun _ => true)
      = { exitCode := 0, attempts := 3, sleepTime := 4 } :=
  retry_succeeds_after_k_failures (fun i => decide (2 ≤ i)) (fun _ => true) 2
    (by decide) (by decide) (by decide) (by decide)

/-- C4 counterexample: establishment (connect plus initialize) succeeds on
attempt 0, the tool invocation on that established session fails, and the
retry loop then performs a second connect/initialize attempt — the
invocation failure is retried rather than surfaced as a per-case outcome. -/
theorem invocation_retry_counterexample :
    (fun (_ : Nat) => true) 0 = true ∧
    (fun i => decide (1 ≤ i)) 0 = false ∧
    (sse_quick_main (fun _ => true) (fun i => decide (1 ≤ i))).attempts = 2 ∧
    (sse_quick_main (fun _ => true) (fun i => decide (1 ≤ i))).exitCode = 0 := by
  refine ⟨rfl, rfl, rfl, rfl⟩

/-- C4 amended: the retry loop of the quick transport checks wraps the
whole attempt body, so when initialize succeeds on the first attempt and a
subsequent tool invocation on the established session raises, the same
except handler catches it and the loop re-attempts connect/initialize:
at least a second attempt is always performed. -/
theorem invocation_failure_is_retried (est bod : Nat → Bool)
    (hest : est 0 = true) (hbod : bod 0 = false) :
    2 ≤ (sse_quick_main est bod).attempts := by
  have hcond : (est 0 && bod 0) = false := by simp [hbod]
  have h5 : sse_quick_main est bod = sse_quick_go est bod 0 (3 + 2) := rfl
  rw [h5, sse_quick_go_fail_step est bod 0 3 hcond]
  have h := sse_quick_go_attempts_pos est bod 1 (3 + 1) (by omega)
  show 2 ≤ (sse_quick_go est bod (0 + 1) (3 + 1)).attempts + 1
  simp only [Nat.zero_add] at h ⊢
  omega

/-- C4 witness: a run whose establishment always succeeds and whose tool
calls always fail performs more than one connect/initialize attempt. -/
theorem invocation_failure_is_retried_witness :
    2 ≤ (sse_quick_main (fun _ => true) (fun _ => false)).attempts :=
  invocation_failure_is_retried (fun _ => true) (fun _ => false) rfl rfl

/-- Outcome of one remote invocation as seen inside
`MCPTestClient.call_tool`: either the decoded value of the response
content, or an exception raised by the transport or the remote side. -/
inductive CallOutcome where
  | value : PyVal → CallOutcome
  | raised : String → CallOutcome

/-- `MCPTestClient.call_tool` (mcp_test_client.py, lines 86-99): the
decoded response value is returned as is, while a raised exception is
captured and returned as a dict holding its message under "error". -/
def call_tool : CallOutcome → PyVal
  | .value v => v
  | .raised msg => .dict [("error", .str msg)]

/-- The static test catalog of `MCPTestClient.test_memory`
(mcp_test_client.py, lines 248-259): case name, memory command and
expectation tag, in registration order. -/
def memory_tests : List (String × String × String) :=
  [("create simple file", "create", "created"),
   ("view file", "view", "content"),
   ("str_replace success", "str_replace", "replaced"),
   ("insert line", "insert", "inserted"),
   ("view with range", "view", "range"),
   ("create nested", "create", "nested"),
   ("view nested", "view", "directory"),
   ("rename file", "rename", "renamed"),
   ("delete file", "delete", "deleted"),
   ("verify deleted", "view", "not found")]

/-- The per-case loop of `MCPTestClient.test_memory`: every case invokes
the operation (its outcome given by `env` at the case index) and appends
exactly one classified TestResult; no outcome ends the loop early. -/
def run_memory_cases (env : Nat → CallOutcome) (i : Nat) :
    List (String × String × String) → List TestResult
  | [] => []
  | c :: rest =>
    test_memory_case c.2.1 c.1 c.2.2 (call_tool (env i))
      :: run_memory_cases env (i + 1) rest

/-- The whole memory suite of MCPTestClient under invocation outcomes
`env`. -/
def test_memory_suite (env : Nat → CallOutcome) : List TestResult :=
  run_memory_cases env 0 memory_tests

theorem run_memory_cases_length (env : Nat → CallOutcome)
    (cs : List (String × String × String)) :
    ∀ i, (run_memory_cases env i cs).length = cs.length := by
  induction cs with
  | nil => intro i; rfl
  | cons c rest ih =>
    intro i
    simp [run_memory_cases, ih (i + 1)]

theorem run_memory_cases_getElem (env : Nat → CallOutcome)
    (cs : List (String × String × String)) :
    ∀ i j, (run_memory_cases env i cs)[j]?
      = (cs[j]?).map
          (fun c => test_memory_case c.2.1 c.1 c.2.2 (call_tool (env (i + j)))) := by
  induction cs with
  | nil => intro i j; simp [run_memory_cases]
  | cons c rest ih =>
    intro i j
    cases j with
    | zero => simp [run_memory_cases]
    | succ j =>
      simp only [run_memory_cases, List.getElem?_cons_succ]
      rw [ih (i + 1) j, show i + (j + 1) = i + 1 + j by omega]

/-- One step of a grouped try-block in test_full_comprehensive.py: whether
the underlying tool call raises, and the result that `test_result` records
when it does not. -/
structure GroupStep where
  raises : Bool
  result : String × Bool

/-- Execution of one try-block that spans a whole tool group in
test_full_comprehensive.py (e.g. `test_todo_tools`, lines 147-180): cases
run in order until the first raising call, which jumps to the except
handler; that handler records exactly one failing result named after the
group and the remaining cases of the group are skipped. -/
def run_group_try (groupName : String) : List GroupStep → List (String × Bool)
  | [] => []
  | s :: rest =>
    if s.raises then [(groupName, false)]
    else s.result :: run_group_try groupName rest

/-- Substring test on character lists, tried at every suffix. -/
def listInfix (needle : List Char) : List Char → Bool
  | [] => needle.isEmpty
  | c :: t => needle.isPrefixOf (c :: t) || listInfix needle t

/-- True when the first string occurs as a substring of the second
(Python `needle in hay`). -/
def pyIn (needle hay : String) : Bool :=
  listInfix needle.toList hay.toList

/-- `test_todo_tools` of test_full_comprehensive.py (lines 147-180): five
todo cases inside one try-block; `err i` tells whether the i-th call_tool
raises and `text i` is the rendered content of the i-th response. -/
def test_todo_tools (err : Nat → Bool) (text : Nat → String) :
    List (String × Bool) :=
  run_group_try "todo tools"
    [{ raises := err 0, result := ("todo add", true) },
     { raises := err 1,
       result := ("todo list",
         pyIn "task1" (text 1) || pyIn "Test task" (text 1)) },
     { raises := err 2, result := ("todo update", true) },
     { raises := err 3, result := ("todo delete", true) },
     { raises := err 4, result := ("todo clearCompleted", true) }]

/-- C2 counterexample: in test_full_comprehensive.test_todo_tools an
error raised by the second call ("todo list") yields only two recorded
results — the passing "todo add" and one failing result named after the
whole group — so the remaining cases "todo update", "todo delete" and
"todo clearCompleted" are never executed, and no failing result is
recorded for the erroring case itself. -/
theorem suite_isolation_counterexample :
    test_todo_tools (fun i => decide (i = 1)) (fun _ => "")
      = [("todo add", true), ("todo tools", false)] ∧
    (test_todo_tools (fun i => decide (i = 1)) (fun _ => "")).length = 2 := by
  constructor
  · rfl
  · rfl

/-- C2 amended: in MCPTestClient the per-case loop is isolated — every
case of the memory suite yields exactly one TestResult whatever the
invocation outcomes, and a raised error on a case other than the
failure-expected one is recorded as a failing result carrying that case
name; but in test_full_comprehensive a whole tool group shares one
try-block, so an error raised by the second todo call leaves only the
first result plus a single failing group result, skipping the rest of the
group. -/
theorem per_case_error_isolation (env : Nat → CallOutcome)
    (err : Nat → Bool) (text : Nat → String) (i : Nat) (msg : String)
    (hi : i < memory_tests.length)
    (henv : env i = CallOutcome.raised msg)
    (hname : ∀ c, memory_tests[i]? = some c → c.1 ≠ "verify deleted")
    (h0 : err 0 = false) (h1 : err 1 = true) :
    (test_memory_suite env).length = memory_tests.length ∧
    (∃ c r, memory_tests[i]? = some c ∧ (test_memory_suite env)[i]? = some r ∧
      r.passed = false ∧ r.name = c.1 ∧ r.error = some msg) ∧
    test_todo_tools err text = [("todo add", true), ("todo tools", false)] := by
  refine ⟨run_memory_cases_length env memory_tests 0, ?_, ?_⟩
  · have hget := run_memory_cases_getElem env memory_tests 0 i
    rw [List.getElem?_eq_getElem hi] at hget
    simp only [Option.map_some', Nat.zero_add] at hget
    rw [henv] at hget
    have hnm := hname memory_tests[i] (List.getElem?_eq_getElem hi)
    refine ⟨memory_tests[i], _, List.getElem?_eq_getElem hi, hget, ?_, ?_, ?_⟩
    · simp [test_memory_case, call_tool, isErrorDict, hnm]
    · simp [test_memory_case, call_tool, isErrorDict, hnm]
    · simp [test_memory_case, call_tool, isErrorDict, dictErrorText, pyStr, hnm]
  · simp [test_todo_tools, run_group_try, h0, h1]

/-- C2 witness: under outcomes where every memory call raises, the memory
suite still records one result per case (all ten), with the first case
failing under its own name; and the grouped todo try-block with its second
call raising records only the first result plus the single group failure. -/
theorem per_case_error_isolation_witness :
    (test_memory_suite (fun _ => CallOutcome.raised "Connection closed")).length
      = 10 ∧
    test_todo_tools (fun i => decide (1 ≤ i)) (fun _ => "")
      = [("todo add", true), ("todo tools", false)] := by
  have h := per_case_error_isolation
    (fun _ => CallOutcome.raised "Connection closed")
    (fun i => decide (1 ≤ i)) (fun _ => "") 0 "Connection closed"
    (by decide) rfl
    (by
      intro c hc
      have hc2 : some ("create simple file", "create", "created") = some c := hc
      injection hc2 with h2
      rw [← h2]
      decide)
    (by decide) (by decide)
  exact ⟨h.1, h.2.2⟩

/-- How a whole client run completed, as observed at a script entry
point: normal completion with the accumulated results, a
KeyboardInterrupt propagating to the entry point, or another unhandled
exception. -/
inductive RunCompletion where
  | normal : List TestResult → RunCompletion
  | interrupted : RunCompletion
  | errored : RunCompletion

/-- The entry point of echo-sync-test-py.py (lines 372-378): after the
run, `sys.exit(0 if failed == 0 else 1)` with failed the count of
non-passing results.  The script installs no KeyboardInterrupt handler,
so an interruption (like any unhandled exception) makes the interpreter
exit with status 1, not a distinct code. -/
def echo_sync_exit : RunCompletion → Nat
  | .normal rs => if rs.countP (fun r => !r.passed) = 0 then 0 else 1
  | .interrupted => 1
  | .errored => 1

/-- The entry point of mcp_test_client.py (lines 536-537): the module
runs `asyncio.run(main())` with no `sys.exit` at all, so normal
completion exits with status 0 whatever the results; an unhandled
exception (including KeyboardInterrupt) exits with status 1. -/
def mcp_test_client_exit : RunCompletion → Nat
  | .normal _ => 0
  | .interrupted => 1
  | .errored => 1

/-- How the boolean run of test_stdio_quick.py / test_streamable_quick.py
completed. -/
inductive QuickOutcome where
  | passed : QuickOutcome
  | failed : QuickOutcome
  | interrupted : QuickOutcome
  | errored : QuickOutcome

/-- `main` of test_stdio_quick.py (lines 99-111) and of
test_streamable_quick.py (lines 100-112): 0 when run_test returned True,
1 when it returned False, 130 on KeyboardInterrupt, 1 on any other
unhandled exception. -/
def stdio_quick_exit : QuickOutcome → Nat
  | .passed => 0
  | .failed => 1
  | .interrupted => 130
  | .errored => 1

/-- C8 counterexample: mcp_test_client.py exits with code 0 even for a
run whose only case failed, because its entry point never turns the
accumulated results into an exit status. -/
theorem exit_code_counterexample :
    mcp_test_client_exit (RunCompletion.normal
      [{ tool := "calculate", operation := "ADD", name := "ADD positive",
         passed := false }]) = 0 := by
  rfl

/-- C8 amended: the quick transport scripts implement the claimed exit
codes — 0 on an all-passed run, 1 on failure, the distinct code 130
(differing from 0 and 1) on user interruption — and echo-sync-test-py
exits 0 exactly on an all-passed run and 1 when any case failed, but maps
interruption to the non-distinct code 1; mcp_test_client.py exits 0 on
every normally completing run regardless of failures. -/
theorem exit_codes_amended (rs : List TestResult) :
    ((∀ r ∈ rs, r.passed = true) →
      echo_sync_exit (RunCompletion.normal rs) = 0) ∧
    ((∃ r ∈ rs, r.passed = false) →
      echo_sync_exit (RunCompletion.normal rs) = 1) ∧
    (stdio_quick_exit QuickOutcome.passed = 0 ∧
      stdio_quick_exit QuickOutcome.failed = 1 ∧
      stdio_quick_exit QuickOutcome.interrupted = 130 ∧
      stdio_quick_exit QuickOutcome.interrupted ≠ 0 ∧
      stdio_quick_exit QuickOutcome.interrupted ≠ 1) ∧
    echo_sync_exit RunCompletion.interrupted = 1 ∧
    mcp_test_client_exit (RunCompletion.normal rs) = 0 := by
  refine ⟨?_, ?_, ⟨rfl, rfl, rfl, by decide, by decide⟩, rfl, rfl⟩
  · intro hall
    have hz : rs.countP (fun r => !r.passed) = 0 := by
      rw [List.countP_eq_zero]
      intro r hr
      simp [hall r hr]
    simp [echo_sync_exit, hz]
  · intro hex
    have hpos : 0 < rs.countP (fun r => !r.passed) := by
      rw [List.countP_pos_iff]
      obtain ⟨r, hr, hfail⟩ := hex
      exact ⟨r, hr, by simp [hfail]⟩
    have hnz : ¬ rs.countP (fun r => !r.passed) = 0 := by omega
    simp [echo_sync_exit, hnz]

/-- C8 witness: a run with one passing result exits 0 under
echo-sync-test-py, interruption exits 130 in the quick scripts, and the
same run exits 0 under mcp_test_client.py. -/
theorem exit_codes_amended_witness :
    echo_sync_exit (RunCompletion.normal
      [{ tool := "echo", operation := "echo", name := "Simple",
         passed := true }]) = 0 ∧
    stdio_quick_exit QuickOutcome.interrupted = 130 := by
  have h := exit_codes_amended
    [{ tool := "echo", operation := "echo", name := "Simple",
       passed := true }]
  exact ⟨h.1 (by intro r hr; cases hr with
    | head => rfl
    | tail _ hr2 => cases hr2), h.2.2.1.2.2.1⟩

/-- ASCII code of one lower-case hexadecimal digit, as used by the
uXXXX escapes of json.dumps. -/
def hexDigitChar (x : Nat) : Nat :=
  if x < 10 then 48 + x else 87 + x

/-- One six-character backslash-u escape for a single UTF-16 code unit. -/
def uEscape (c : Nat) : List Nat :=
  [92, 117, hexDigitChar (c / 4096 % 16), hexDigitChar (c / 256 % 16),
   hexDigitChar (c / 16 % 16), hexDigitChar (c % 16)]

/-- Escaping of one character of a JSON string by json.dumps with its
default ensure_ascii=True: quote and backslash are escaped, the control
characters with short escapes use them, every other character outside the
printable ASCII range 0x20-0x7e becomes a backslash-u escape (a surrogate
pair above 0xFFFF), and printable ASCII is emitted unchanged.  Characters
are represented by their code points. -/
def escapeChar (c : Nat) : List Nat :=
  if c = 34 then [92, 34]
  else if c = 92 then [92, 92]
  else if c = 8 then [92, 98]
  else if c = 9 then [92, 116]
  else if c = 10 then [92, 110]
  else if c = 12 then [92, 102]
  else if c = 13 then [92, 114]
  else if 32 ≤ c ∧ c ≤ 126 then [c]
  else if c < 65536 then uEscape c
  else uEscape (55296 + (c - 65536) / 1024)
    ++ uEscape (56320 + (c - 65536) % 1024)

/-- Decimal digits of a natural number in ASCII, with enough fuel. -/
def natAsciiAux : Nat → Nat → List Nat
  | 0, _ => []
  | fuel + 1, n =>
    if n < 10 then [48 + n]
    else natAsciiAux fuel (n / 10) ++ [48 + n % 10]

/-- Decimal ASCII rendering of a natural number. -/
def natAscii (n : Nat) : List Nat :=
  natAsciiAux (n + 1) n

/-- Decimal ASCII rendering of an integer (a leading minus sign when
negative), as json.dumps renders int values. -/
def intAscii (n : Int) : List Nat :=
  if n < 0 then 45 :: natAscii n.natAbs else natAscii n.toNat

mutual
/-- A JSON value of the shapes the requests of
test_multi_class_servers.py use: strings (as code-point lists), integers
and objects. -/
inductive JValue where
  | jstr : List Nat → JValue
  | jint : Int → JValue
  | jobj : JFields → JValue
/-- The ordered field list of a JSON object. -/
inductive JFields where
  | fnil : JFields
  | fcons : List Nat → JValue → JFields → JFields
end

/-- A JSON string literal as serialized by json.dumps: a quote, the
escaped characters, a closing quote. -/
def dumpsString (s : List Nat) : List Nat :=
  34 :: ((s.map escapeChar).flatten ++ [34])

mutual
/-- json.dumps with default separators, producing the code points of the
serialized text (ensure_ascii escaping included). -/
def dumpsVal : JValue → List Nat
  | .jstr s => dumpsString s
  | .jint n => intAscii n
  | .jobj fs => 123 :: (dumpsFields fs ++ [125])
/-- The comma-and-space separated field renderings of an object, each
field as quoted key, colon, space, value. -/
def dumpsFields : JFields → List Nat
  | .fnil => []
  | .fcons k v .fnil => dumpsString k ++ ([58, 32] ++ dumpsVal v)
  | .fcons k v (.fcons k2 v2 rest) =>
      dumpsString k ++ ([58, 32] ++ (dumpsVal v ++ ([44, 32]
        ++ dumpsFields (.fcons k2 v2 rest))))
end

/-- UTF-8 byte width of one code point. -/
def utf8Len (c : Nat) : Nat :=
  if c < 128 then 1 else if c < 2048 then 2 else if c < 65536 then 3 else 4

/-- Number of bytes of the UTF-8 encoding of a code-point sequence. -/
def utf8ByteLength (s : List Nat) : Nat :=
  (s.map utf8Len).sum

/-- The code points of the ASCII header prefix written by send_request. -/
def contentLengthHeader : List Nat :=
  ("Content-Length: ".toList).map Char.toNat

/-- The carriage-return/line-feed pair twice: the end of the header line
followed by the blank line. -/
def crlf2 : List Nat := [13, 10, 13, 10]

/-- The full frame written by `send_request` of
test_multi_class_servers.py (lines 40-44): the header carrying
`len(request_str)`, a blank line, then the serialized request itself. -/
def send_request_frame (req : JValue) : List Nat :=
  contentLengthHeader ++ (natAscii (dumpsVal req).length
    ++ (crlf2 ++ dumpsVal req))

theorem hexDigitChar_lt (x : Nat) (hx : x < 16) : hexDigitChar x < 128 := by
  unfold hexDigitChar
  split <;> omega

theorem uEscape_ascii (c : Nat) : ∀ b ∈ uEscape c, b < 128 := by
  intro b hb
  simp only [uEscape, List.mem_cons, List.not_mem_nil, or_false] at hb
  rcases hb with rfl | rfl | rfl | rfl | rfl | rfl <;>
    first
      | omega
      | exact hexDigitChar_lt _ (Nat.mod_lt _ (by omega))

theorem escapeChar_ascii (c : Nat) : ∀ b ∈ escapeChar c, b < 128 := by
  intro b hb
  unfold escapeChar at hb
  split_ifs at hb with h1 h2 h3 h4 h5 h6 h7 h8 h9
  · simp only [List.mem_cons, List.not_mem_nil, or_false] at hb
    rcases hb with rfl | rfl <;> omega
  · simp only [List.mem_cons, List.not_mem_nil, or_false] at hb
    rcases hb with rfl | rfl <;> omega
  · simp only [List.mem_cons, List.not_mem_nil, or_false] at hb
    rcases hb with rfl | rfl <;> omega
  · simp only [List.mem_cons, List.not_mem_nil, or_false] at hb
    rcases hb with rfl | rfl <;> omega
  · simp only [List.mem_cons, List.not_mem_nil, or_false] at hb
    rcases hb with rfl | rfl <;> omega
  · simp only [List.mem_cons, List.not_mem_nil, or_false] at hb
    rcases hb with rfl | rfl <;> omega
  · simp only [List.mem_cons, List.not_mem_nil, or_false] at hb
    rcases hb with rfl | rfl <;> omega
  · simp only [List.mem_cons, List.not_mem_nil, or_false] at hb
    subst hb
    omega
  · exact uEscape_ascii c b hb
  · rcases List.mem_append.mp hb with h | h
    · exact uEscape_ascii _ b h
    · exact uEscape_ascii _ b h

theorem natAsciiAux_ascii (fuel : Nat) :
    ∀ n, ∀ b ∈ natAsciiAux fuel n, b < 128 := by
  induction fuel with
  | zero =>
    intro n b hb
    simp [natAsciiAux] at hb
  | succ fuel ih =>
    intro n b hb
    simp only [natAsciiAux] at hb
    split at hb
    · simp only [List.mem_cons, List.not_mem_nil, or_false] at hb
      omega
    · rcases List.mem_append.mp hb with h | h
      · exact ih (n / 10) b h
      · simp only [List.mem_cons, List.not_mem_nil, or_false] at h
        have := Nat.mod_lt n (show 0 < 10 by omega)
        omega

theorem intAscii_ascii (n : Int) : ∀ b ∈ intAscii n, b < 128 := by
  intro b hb
  unfold intAscii at hb
  split at hb
  · rcases List.mem_cons.mp hb with rfl | h
    · omega
    · exact natAsciiAux_ascii _ _ b h
  · exact natAsciiAux_ascii _ _ b hb

theorem dumpsString_ascii (s : List Nat) : ∀ b ∈ dumpsString s, b < 128 := by
  intro b hb
  rcases List.mem_cons.mp hb with rfl | hb2
  · omega
  · rcases List.mem_append.mp hb2 with h | h
    · obtain ⟨l, hl, hbl⟩ := List.mem_flatten.mp h
      obtain ⟨c, _, rfl⟩ := List.mem_map.mp hl
      exact escapeChar_ascii c b hbl
    · simp only [List.mem_cons, List.not_mem_nil, or_false] at h
      omega

mutual
theorem dumpsVal_ascii (v : JValue) : ∀ b ∈ dumpsVal v, b < 128 := by
  match v with
  | .jstr s => exact dumpsString_ascii s
  | .jint n => exact intAscii_ascii n
  | .jobj fs =>
    intro b hb
    simp only [dumpsVal] at hb
    rcases List.mem_cons.mp hb with rfl | hb2
    · omega
    · rcases List.mem_append.mp hb2 with h | h
      · exact dumpsFields_ascii fs b h
      · simp only [List.mem_cons, List.not_mem_nil, or_false] at h
        omega
theorem dumpsFields_ascii (fs : JFields) : ∀ b ∈ dumpsFields fs, b < 128 := by
  match fs with
  | .fnil =>
    intro b hb
    simp [dumpsFields] at hb
  | .fcons k v .fnil =>
    intro b hb
    simp only [dumpsFields] at hb
    rcases List.mem_append.mp hb with h | h
    · exact dumpsString_ascii k b h
    · rcases List.mem_append.mp h with h2 | h2
      · simp only [List.mem_cons, List.not_mem_nil, or_false] at h2
        rcases h2 with rfl | rfl <;> omega
      · exact dumpsVal_ascii v b h2
  | .fcons k v (.fcons k2 v2 rest) =>
    intro b hb
    simp only [dumpsFields] at hb
    rcases List.mem_append.mp hb with h | h
    · exact dumpsString_ascii k b h
    · rcases List.mem_append.mp h with h2 | h2
      · simp only [List.mem_cons, List.not_mem_nil, or_false] at h2
        rcases h2 with rfl | rfl <;> omega
      · rcases List.mem_append.mp h2 with h3 | h3
        · exact dumpsVal_ascii v b h3
        · rcases List.mem_append.mp h3 with h4 | h4
          · simp only [List.mem_cons, List.not_mem_nil, or_false] at h4
            rcases h4 with rfl | rfl <;> omega
          · exact dumpsFields_ascii (.fcons k2 v2 rest) b h4
end

theorem ascii_utf8_length (s : List Nat) (h : ∀ b ∈ s, b < 128) :
    utf8ByteLength s = s.length := by
  induction s with
  | nil => rfl
  | cons c rest ih =>
    have hc : c < 128 := h c (List.mem_cons_self c rest)
    have hrest : ∀ b ∈ rest, b < 128 :=
      fun b hb => h b (List.mem_cons_of_mem c hb)
    simp only [utf8ByteLength, List.map_cons, List.sum_cons, List.length_cons]
    rw [show (rest.map utf8Len).sum = utf8ByteLength rest from rfl, ih hrest]
    unfold utf8Len
    rw [if_pos hc]
    omega

/-- C7: for every request serialized and framed by send_request — with
json.dumps escaping every non-ASCII character under its default
ensure_ascii — the serialized payload is pure ASCII, so the byte count n
carried in the Content-Length header (the character length of the
serialized message) equals the UTF-8 byte count of the payload, and the
frame is exactly the header line, a blank line, and those n payload
bytes. -/
theorem send_request_content_length (req : JValue) :
    utf8ByteLength (dumpsVal req) = (dumpsVal req).length ∧
    (∀ b ∈ dumpsVal req, b < 128) ∧
    send_request_frame req
      = contentLengthHeader ++ (natAscii (dumpsVal req).length
          ++ (crlf2 ++ dumpsVal req)) :=
  ⟨ascii_utf8_length (dumpsVal req) (dumpsVal_ascii req),
   dumpsVal_ascii req, rfl⟩

/-- C7 witness: the frame of a request whose string payload contains the
non-ASCII characters U+4E16 and U+754C still has a UTF-8 payload length
equal to the header count, with both characters escaped to six ASCII
characters each. -/
theorem send_request_content_length_witness :
    utf8ByteLength (dumpsVal (JValue.jobj (JFields.fcons
        [109, 101, 115, 115, 97, 103, 101]
        (JValue.jstr [72, 105, 32, 19990, 30028]) JFields.fnil)))
      = (dumpsVal (JValue.jobj (JFields.fcons
        [109, 101, 115, 115, 97, 103, 101]
        (JValue.jstr [72, 105, 32, 19990, 30028]) JFields.fnil))).length ∧
    (dumpsVal (JValue.jobj (JFields.fcons
        [109, 101, 115, 115, 97, 103, 101]
        (JValue.jstr [72, 105, 32, 19990, 30028]) JFields.fnil))).length
      = 30 := by
  constructor
  · exact (send_request_content_length (JValue.jobj (JFields.fcons
      [109, 101, 115, 115, 97, 103, 101]
      (JValue.jstr [72, 105, 32, 19990, 30028]) JFields.fnil))).1
  · rfl

/-- The whitespace characters stripped by Python str.strip(). -/
def isPySpace (ch : Char) : Bool :=
  ch = ' ' || ch = '\t' || ch = '\n' || ch = '\r' || ch = '\x0b' || ch = '\x0c'

/-- Python str.strip(): leading and trailing whitespace removed. -/
def pyStrip (s : String) : String :=
  String.mk (((s.toList.dropWhile isPySpace).reverse.dropWhile
    isPySpace).reverse)

/-- Python str.startswith(prefix). -/
def pyStartsWith (pre s : String) : Bool :=
  pre.toList.isPrefixOf s.toList

/-- The text between the first and second colon of a line, as selected by
`line.split(":")[1]` in send_request. -/
def afterFirstColon (s : String) : String :=
  String.mk ((((s.toList).dropWhile (fun ch => ch ≠ ':')).drop 1).takeWhile
    (fun ch => ch ≠ ':'))

/-- Python int(...) over a stripped string: a value for decimal-digit
input, and no value to model the ValueError raised on anything else. -/
def pyInt (s : String) : Option Nat :=
  if (pyStrip s).toList ≠ [] ∧ (pyStrip s).toList.all (fun ch => ch.isDigit)
  then some ((pyStrip s).toList.foldl
    (fun acc ch => acc * 10 + (ch.toNat - 48)) 0)
  else Option.none

/-- process.stdout.read(L) at line granularity: characters taken from the
stream starting at line index i until L characters are collected or the
stream reports end of file (modelled as an empty line, the value
readline() returns at end of file). -/
def readN (stream : Nat → String) (i L : Nat) : String :=
  if hL : L = 0 then ""
  else
    if hs : stream i = "" then ""
    else
      if L ≤ (stream i).length then String.mk ((stream i).toList.take L)
      else stream i ++ readN stream (i + 1) (L - (stream i).length)
termination_by L
decreasing_by
  have hpos : 0 < (stream i).length := by
    rcases Nat.eq_zero_or_pos (stream i).length with h0 | hpos
    · exact absurd (String.ext (show (stream i).data = "".data from
        List.eq_nil_of_length_eq_zero h0)) hs
    · exact hpos
  omega

/-- Result of the frame-reading loop of send_request
(test_multi_class_servers.py, lines 46-57): the response text at the
break that ended the loop, or the ValueError escaping from int() on a
malformed header line. -/
inductive ReadOutcome where
  | response : String → ReadOutcome
  | valueError : ReadOutcome

/-- The frame-reading loop of send_request, reading lines from `stream`
starting at line index i, with fuel bounding the number of iterations
examined: no value within the fuel bound means the loop is still running
after that many iterations.  An empty readline (end of file) or a blank
line breaks with the empty response; a Content-Length header consumes one
further readline (the ignored blank separator) and reads the announced
number of characters; any other line is skipped and the loop continues. -/
def read_response_go (stream : Nat → String) : Nat → Nat → Option ReadOutcome
  | _, 0 => Option.none
  | i, fuel + 1 =>
    if stream i = "" then some (.response "")
    else if pyStrip (stream i) = "" then some (.response "")
    else if pyStartsWith "Content-Length:" (stream i) then
      match pyInt (afterFirstColon (stream i)) with
      | some L => some (.response (readN stream (i + 2) L))
      | Option.none => some .valueError
    else read_response_go stream (i + 1) fuel

/-- JSON whitespace as skipped by json.loads. -/
def jsonWs (ch : Char) : Bool :=
  ch = ' ' || ch = '\t' || ch = '\n' || ch = '\r'

/-- Digits of a decimal literal folded to a natural number. -/
def digitsToNat (ds : List Char) : Nat :=
  ds.foldl (fun acc ch => acc * 10 + (ch.toNat - 48)) 0

/-- The characters of a JSON string literal up to its closing quote,
returning the collected characters and the rest of the input.  Escape
sequences are consumed with simplified decoding (the escaped character is
kept literally); no claim depends on string unescaping. -/
def jparseStringChars : List Char → Option (List Char × List Char)
  | [] => Option.none
  | ch :: rest =>
    if ch = '"' then some ([], rest)
    else if ch = '\\' then
      match rest with
      | [] => Option.none
      | e :: rest2 =>
        (jparseStringChars rest2).map (fun p => (e :: p.1, p.2))
    else (jparseStringChars rest).map (fun p => (ch :: p.1, p.2))

/-- A JSON integer literal with optional leading minus. -/
def jparseNumber (cs : List Char) : Option (PyVal × List Char) :=
  match cs with
  | '-' :: rest =>
    if rest.takeWhile Char.isDigit = [] then Option.none
    else some (.num (-(digitsToNat (rest.takeWhile Char.isDigit) : ℚ)),
      rest.dropWhile Char.isDigit)
  | _ =>
    if cs.takeWhile Char.isDigit = [] then Option.none
    else some (.num (digitsToNat (cs.takeWhile Char.isDigit) : ℚ),
      cs.dropWhile Char.isDigit)

mutual
/-- Recursive-descent model of json.loads: one JSON value and the
remaining input, with fuel bounding the nesting examined. -/
def jparseVal : Nat → List Char → Option (PyVal × List Char)
  | 0, _ => Option.none
  | fuel + 1, cs =>
    match cs.dropWhile jsonWs with
    | [] => Option.none
    | ch :: rest =>
      if ch = 'n' then
        match rest with
        | 'u' :: 'l' :: 'l' :: rest2 => some (.none, rest2)
        | _ => Option.none
      else if ch = 't' then
        match rest with
        | 'r' :: 'u' :: 'e' :: rest2 => some (.bool true, rest2)
        | _ => Option.none
      else if ch = 'f' then
        match rest with
        | 'a' :: 'l' :: 's' :: 'e' :: rest2 => some (.bool false, rest2)
        | _ => Option.none
      else if ch = '"' then
        (jparseStringChars rest).map (fun p => (.str (String.mk p.1), p.2))
      else if ch = '[' then
        match rest.dropWhile jsonWs with
        | ']' :: rest2 => some (.list [], rest2)
        | _ => (jparseItems fuel rest).map (fun p => (.list p.1, p.2))
      else if ch = '\x7b' then
        match rest.dropWhile jsonWs with
        | '\x7d' :: rest2 => some (.dict [], rest2)
        | _ => (jparseFields fuel rest).map (fun p => (.dict p.1, p.2))
      else jparseNumber (ch :: rest)
/-- Comma-separated array items up to the closing bracket. -/
def jparseItems : Nat → List Char → Option (List PyVal × List Char)
  | 0, _ => Option.none
  | fuel + 1, cs =>
    match jparseVal fuel cs with
    | Option.none => Option.none
    | some (v, rest) =>
      match rest.dropWhile jsonWs with
      | ',' :: rest2 =>
        (jparseItems fuel rest2).map (fun p => (v :: p.1, p.2))
      | ']' :: rest2 => some ([v], rest2)
      | _ => Option.none
/-- Comma-separated object fields up to the closing brace. -/
def jparseFields : Nat → List Char → Option (List (String × PyVal) × List Char)
  | 0, _ => Option.none
  | fuel + 1, cs =>
    match cs.dropWhile jsonWs with
    | '"' :: rest =>
      match jparseStringChars rest with
      | Option.none => Option.none
      | some (key, rest2) =>
        match rest2.dropWhile jsonWs with
        | ':' :: rest3 =>
          match jparseVal fuel rest3 with
          | Option.none => Option.none
          | some (v, rest4) =>
            match rest4.dropWhile jsonWs with
            | ',' :: rest5 =>
              (jparseFields fuel rest5).map
                (fun p => ((String.mk key, v) :: p.1, p.2))
            | '\x7d' :: rest5 => some ([(String.mk key, v)], rest5)
            | _ => Option.none
        | _ => Option.none
    | _ => Option.none
end

/-- json.loads: a single JSON value covering the whole input; anything
else (in particular the empty string) raises JSONDecodeError, modelled as
no value. -/
def json_loads (s : String) : Option PyVal :=
  match jparseVal (s.length + 1) s.toList with
  | some (v, rest) =>
    if rest.dropWhile jsonWs = [] then some v else Option.none
  | Option.none => Option.none

/-- Observable outcome of one send_request call: the returned value, or
an exception (the int() ValueError) escaping the function. -/
inductive SendOutcome where
  | value : PyVal → SendOutcome
  | raised : SendOutcome

/-- send_request of test_multi_class_servers.py after writing the frame:
run the reading loop, then json.loads on the collected response, catching
JSONDecodeError into the failure dict (lines 59-62).  No value within the
fuel bound means the call is still blocked in the loop. -/
def send_request_model (stream : Nat → String) (fuel : Nat) :
    Option SendOutcome :=
  match read_response_go stream 0 fuel with
  | Option.none => Option.none
  | some ReadOutcome.valueError => some SendOutcome.raised
  | some (ReadOutcome.response resp) =>
    some (SendOutcome.value (match json_loads resp with
      | some v => v
      | Option.none =>
        PyVal.dict [("error", PyVal.str "Failed to parse response")]))

theorem read_go_garbage : ∀ fuel i,
    read_response_go (fun _ => "noise\n") i fuel = Option.none := by
  intro fuel
  induction fuel with
  | zero => intro i; rfl
  | succ fuel ih =>
    intro i
    simp only [read_response_go]
    rw [if_neg (by decide), if_neg (by decide), if_neg (by decide)]
    exact ih (i + 1)

theorem read_go_eof (stream : Nat → String) (k : Nat) :
    ∀ i fuel, k < fuel → stream (i + k) = "" →
    (∀ j, j < k → stream (i + j) ≠ "" ∧ pyStrip (stream (i + j)) ≠ "" ∧
      pyStartsWith "Content-Length:" (stream (i + j)) = false) →
    read_response_go stream i fuel = some (ReadOutcome.response "") := by
  induction k with
  | zero =>
    intro i fuel hk hEOF hlines
    match fuel with
    | 0 => omega
    | fuel + 1 =>
      rw [Nat.add_zero] at hEOF
      simp only [read_response_go]
      rw [if_pos hEOF]
  | succ k ih =>
    intro i fuel hk hEOF hlines
    match fuel with
    | 0 => omega
    | fuel + 1 =>
      obtain ⟨h1, h2, h3⟩ := hlines 0 (Nat.succ_pos k)
      rw [Nat.add_zero] at h1 h2 h3
      simp only [read_response_go]
      rw [if_neg h1, if_neg h2, if_neg (by simp [h3])]
      exact ih (i + 1) fuel (by omega)
        (by rwa [show i + 1 + k = i + (k + 1) by omega])
        (fun j hj => by
          have h := hlines (j + 1) (by omega)
          rwa [show i + (j + 1) = i + 1 + j by omega] at h)

/-- C9 counterexample: the frame-reading loop of send_request has no
timeout of any kind — against a host that keeps the channel open and
yields only non-frame lines, no iteration bound makes the loop return, so
the pending read is not failed within any bounded wait and the loop is
not a total function of the input stream. -/
theorem read_loop_unbounded_counterexample :
    ¬ ∃ fuel,
      (read_response_go (fun _ => "noise\n") 0 fuel).isSome = true := by
  rintro ⟨fuel, h⟩
  rw [read_go_garbage fuel 0] at h
  simp at h

/-- C9 amended: the loop terminates only by courtesy of end of file — for
every stream whose earlier lines are non-blank non-header lines and which
reports end of file at line N, the loop breaks within N + 1 iterations
with the empty response, json.loads then rejects the empty string under
the except clause, and send_request returns the parse-failure error dict;
there is no configurable timeout, and a stream that never reaches end of
file and never yields a frame keeps the loop running forever. -/
theorem read_eof_no_frame (stream : Nat → String) (N : Nat)
    (hEOF : stream N = "")
    (hlines : ∀ j, j < N → stream j ≠ "" ∧ pyStrip (stream j) ≠ "" ∧
      pyStartsWith "Content-Length:" (stream j) = false) :
    read_response_go stream 0 (N + 1) = some (ReadOutcome.response "") ∧
    json_loads "" = Option.none ∧
    send_request_model stream (N + 1)
      = some (SendOutcome.value (PyVal.dict
          [("error", PyVal.str "Failed to parse response")])) := by
  have h := read_go_eof stream N 0 (N + 1) (by omega)
    (by simpa using hEOF) (by simpa using hlines)
  refine ⟨h, rfl, ?_⟩
  simp only [send_request_model, h]
  rfl

/-- C9 witness: a stream with one garbage line followed by end of file
makes send_request return the parse-failure error dict after two loop
iterations. -/
theorem read_eof_no_frame_witness :
    send_request_model (fun i => if i = 0 then "x\n" else "") 2
      = some (SendOutcome.value (PyVal.dict
          [("error", PyVal.str "Failed to parse response")])) :=
  (read_eof_no_frame (fun i => if i = 0 then "x\n" else "") 1 (by rfl)
    (by
      intro j hj
      have hj0 : j = 0 := by omega
      subst hj0
      exact ⟨by decide, by decide, by decide⟩)).2.2
